import Mathlib

/-!
Verification of the market-data-downloader program (src/src/main.rs).

The program downloads OHLCV bars from one of two providers (Polygon,
TwelveData), paginating through responses, and streams them to a CSV or
JSON sink.  This file is a shallow embedding of the parts of `main.rs`
that the properties below talk about:

* URLs are modelled as a base string plus an ordered list of decoded
  query pairs (matching `reqwest::Url::query_pairs` /
  `query_pairs_mut().append_pair`);
* chrono's `NaiveDateTime::parse_from_str` is modelled for the two
  format strings the program uses, including chrono's two-phase design
  (scan the fields into a `Parsed` record, then resolve it — resolution
  fails when the time-of-day fields are absent);
* `Utc.timestamp_millis_opt(..).single()` is modelled by converting the
  millisecond count to a proleptic-Gregorian date and checking chrono's
  representable year range `[-262144, 262143]`;
* the `download` function's page loop is modelled as a function over a
  finite script of HTTP responses, accumulating an event trace and the
  sink state.
-/

namespace MarketData

/-- A URL: base (scheme/host/path) plus decoded query pairs in order.
Models `reqwest::Url` at the granularity the program uses it
(`query_pairs` iteration and `append_pair`). -/
structure UrlQ where
  base : String
  query : List (String × String)
deriving Repr, DecidableEq

/-- Function `ensure_api_key_present` from main.rs: appends `("apiKey", api_key)`
unless some query pair already has key `"apiKey"`. -/
def ensure_api_key_present (url : UrlQ) (api_key : String) : UrlQ :=
  let has_key := url.query.any (fun p => p.1 == "apiKey")
  if has_key then url
  else { url with query := url.query ++ [("apiKey", api_key)] }

/-- Key predicate stripped by the TwelveData next-request builder
(`k != "page_token" && k != "next_page_token"` in main.rs). -/
def notPageTokenKey (p : String × String) : Bool :=
  p.1 != "page_token" && p.1 != "next_page_token"

/-- The TwelveData (Variant B) next-request builder from the `download`
loop: collect the previous request's query pairs, drop any
`page_token`/`next_page_token` pairs, and append `("page_token", token)`. -/
def buildNextTD (prev : UrlQ) (token : String) : UrlQ :=
  { prev with
    query := prev.query.filter notPageTokenKey ++ [("page_token", token)] }

/-- Holds when `hay` contains `needle` as a contiguous substring. -/
def strContains (hay needle : String) : Prop :=
  ∃ pre post : String, hay = pre ++ needle ++ post

/-! ## chrono datetime parsing, for the two formats the program uses

`NaiveDateTime::parse_from_str` works in two phases: the format items
scan the input into a `Parsed` record of optional fields, and the record
is then resolved to a `NaiveDateTime`.  Resolution needs a complete date
*and* the time-of-day fields `hour` and `minute` (`second` defaults
to 0); when they were never scanned it fails with `NotEnough`. -/

/-- Largest value chrono's numeric scanner accepts (`i64::MAX`);
accumulating past it is an overflow error. -/
def i64Max : Nat := 9223372036854775807

/-- Take up to `n` leading ASCII digits. -/
def takeDigits : Nat → List Char → List Char × List Char
  | 0, s => ([], s)
  | _ + 1, [] => ([], [])
  | n + 1, c :: rest =>
    if c.isDigit then
      let (ds, r) := takeDigits n rest
      (c :: ds, r)
    else ([], c :: rest)

/-- Numeric value of a digit string. -/
def digitsVal (ds : List Char) : Nat :=
  ds.foldl (fun a c => a * 10 + (c.toNat - 48)) 0

/-- chrono `scan::number`: consume 1..=`maxDigits` leading digits
greedily; fail when there is no digit or the value overflows `i64`. -/
def scanNumber (maxDigits : Nat) (s : List Char) : Option (Nat × List Char) :=
  let (ds, rest) := takeDigits maxDigits s
  if ds.isEmpty then none
  else if digitsVal ds > i64Max then none
  else some (digitsVal ds, rest)

/-- chrono `Numeric::Year` scanning: an explicit `+`/`-` sign allows
unbounded digits, otherwise at most 4 digits are consumed. -/
def scanYear (s : List Char) : Option (Int × List Char) :=
  match s with
  | '-' :: rest => (scanNumber rest.length rest).map fun p => (-(p.1 : Int), p.2)
  | '+' :: rest => (scanNumber rest.length rest).map fun p => ((p.1 : Int), p.2)
  | _ => (scanNumber 4 s).map fun p => ((p.1 : Int), p.2)

/-- chrono's `Parsed` record restricted to the fields the two format
strings of the program can fill. -/
structure ChronoParsed where
  year : Option Int := none
  month : Option Nat := none
  day : Option Nat := none
  hour : Option Nat := none
  minute : Option Nat := none
  second : Option Nat := none
deriving Repr, DecidableEq

/-- A resolved calendar datetime (chrono `NaiveDateTime` at second
precision, which is all `%Y-%m-%d %H:%M:%S` can produce). -/
structure NaiveDT where
  year : Int
  month : Nat
  day : Nat
  hour : Nat
  minute : Nat
  second : Nat
deriving Repr, DecidableEq

def isLeapYear (y : Int) : Bool :=
  (y % 4 == 0 && y % 100 != 0) || y % 400 == 0

def daysInMonth (y : Int) (m : Nat) : Nat :=
  if m = 2 then (if isLeapYear y then 29 else 28)
  else if m = 4 ∨ m = 6 ∨ m = 9 ∨ m = 11 then 30
  else 31

/-- chrono `Parsed::to_naive_datetime` (offset-free): needs a complete,
in-range date — chrono's representable years are
`[-262144, 262143]` (`i32::MIN >> 13` / `i32::MAX >> 13`) — and the
`hour` and `minute` fields; `second` defaults to 0 and may be 60 (leap
second).  Missing time-of-day fields are a `NotEnough` error. -/
def toNaiveDateTime (p : ChronoParsed) : Option NaiveDT :=
  match p.year, p.month, p.day, p.hour, p.minute with
  | some y, some m, some d, some h, some mi =>
    let s := p.second.getD 0
    if 1 ≤ m ∧ m ≤ 12 ∧ 1 ≤ d ∧ d ≤ daysInMonth y m
        ∧ -262144 ≤ y ∧ y ≤ 262143 ∧ h ≤ 23 ∧ mi ≤ 59 ∧ s ≤ 60 then
      some ⟨y, m, d, h, mi, s⟩
    else none
  | _, _, _, _, _ => none

/-- Scan the date part `%Y-%m-%d`; returns the fields and the rest of
the input. -/
def scanYmd (s : List Char) : Option (Int × Nat × Nat × List Char) :=
  match scanYear s with
  | none => none
  | some (y, r1) =>
    match r1 with
    | '-' :: r2 =>
      match scanNumber 2 r2 with
      | none => none
      | some (m, r3) =>
        match r3 with
        | '-' :: r4 =>
          match scanNumber 2 r4 with
          | none => none
          | some (d, r5) => some (y, m, d, r5)
        | _ => none
    | _ => none

/-- Models `NaiveDateTime::parse_from_str(s, "%Y-%m-%d %H:%M:%S")`.  The space
in the format is chrono `Item::Space` and consumes any (possibly empty)
run of whitespace; trailing input is a `TooLong` error. -/
def parseYmdHms (s : String) : Option NaiveDT :=
  match scanYmd s.data with
  | none => none
  | some (y, m, d, r5) =>
    let r6 := r5.dropWhile Char.isWhitespace
    match scanNumber 2 r6 with
    | none => none
    | some (h, r7) =>
      match r7 with
      | ':' :: r8 =>
        match scanNumber 2 r8 with
        | none => none
        | some (mi, r9) =>
          match r9 with
          | ':' :: r10 =>
            match scanNumber 2 r10 with
            | none => none
            | some (sec, r11) =>
              if r11.isEmpty then
                toNaiveDateTime
                  { year := some y, month := some m, day := some d,
                    hour := some h, minute := some mi, second := some sec }
              else none
          | _ => none
      | _ => none

/-- Models `NaiveDateTime::parse_from_str(s, "%Y-%m-%d")`: the scan can only
fill the date fields, so resolution always fails with `NotEnough` —
chrono cannot produce a `NaiveDateTime` from a date-only format. -/
def parseYmdAsDateTime (s : String) : Option NaiveDT :=
  match scanYmd s.data with
  | none => none
  | some (y, m, d, r5) =>
    if r5.isEmpty then
      toNaiveDateTime { year := some y, month := some m, day := some d }
    else none

/-- The program's datetime parse (main.rs lines 313–315): the full
format first, then the date-only format via `or_else`. -/
def parse_datetime_td (s : String) : Option NaiveDT :=
  (parseYmdHms s).orElse fun _ => parseYmdAsDateTime s

/-- Day count since 1970-01-01 of a proleptic-Gregorian date
(Howard Hinnant's `days_from_civil`). -/
def daysFromCivil (y : Int) (m d : Nat) : Int :=
  let y' : Int := if m ≤ 2 then y - 1 else y
  let era : Int := y'.fdiv 400
  let yoe : Nat := (y' - era * 400).toNat
  let mp : Nat := if m > 2 then m - 3 else m + 9
  let doy : Nat := (153 * mp + 2) / 5 + d - 1
  let doe : Nat := yoe * 365 + yoe / 4 - yoe / 100 + doy
  era * 146097 + (doe : Int) - 719468

/-- Models `Utc.from_utc_datetime(&dt).timestamp_millis()`.  A leap second
(`second = 60`) contributes its extra 1000 ms exactly as chrono's
nanosecond-overflow representation does. -/
def dtTimestampMillis (dt : NaiveDT) : Int :=
  daysFromCivil dt.year dt.month dt.day * 86400000
    + ((dt.hour * 3600 + dt.minute * 60 + dt.second : Nat) : Int) * 1000

/-! ## Rust `str::parse::<f64>` and the TwelveData record decoder -/

/-- Greedy run of leading ASCII digits. -/
def takeDigitsAll (s : List Char) : List Char × List Char :=
  takeDigits s.length s

/-- The case-insensitive special float spellings Rust accepts. -/
def isSpecialFloat (cs : List Char) : Bool :=
  let low := cs.map Char.toLower
  low == "inf".data || low == "infinity".data || low == "nan".data

/-- Rust `s.parse::<f64>()` (core `dec2flt` grammar): optional sign,
then either a special spelling or `digits [. digits] [ (e|E) [sign]
digits ]` with at least one mantissa digit, consuming the whole string.
Success/failure is exact; the returned value is the exact decimal value
as a rational (the program stores the nearest `f64`; no claim below
depends on the value), with the non-finite specials mapped to 0. -/
def parsef (s : String) : Option ℚ :=
  let cs := s.data
  let (sgn, cs1) : ℚ × List Char :=
    match cs with
    | '+' :: r => (1, r)
    | '-' :: r => (-1, r)
    | r => (1, r)
  if cs1.isEmpty then none
  else if isSpecialFloat cs1 then some 0
  else
    let (ip, r1) := takeDigitsAll cs1
    let (fp, r2) : List Char × List Char :=
      match r1 with
      | '.' :: r => takeDigitsAll r
      | r => ([], r)
    if ip.isEmpty && fp.isEmpty then none
    else
      let mant : ℚ := (digitsVal ip : ℚ)
        + (digitsVal fp : ℚ) / ((10 : ℚ) ^ fp.length)
      match r2 with
      | [] => some (sgn * mant)
      | 'e' :: r3 =>
        match parseExpPart r3 with
        | none => none
        | some e => some (sgn * mant * (10 : ℚ) ^ e)
      | 'E' :: r3 =>
        match parseExpPart r3 with
        | none => none
        | some e => some (sgn * mant * (10 : ℚ) ^ e)
      | _ => none
where
  /-- `[sign] digits`, consuming the rest of the input. -/
  parseExpPart (r : List Char) : Option Int :=
    let (esgn, r1) : Int × List Char :=
      match r with
      | '+' :: rr => (1, rr)
      | '-' :: rr => (-1, rr)
      | rr => (1, rr)
    let (ed, r2) := takeDigitsAll r1
    if ed.isEmpty || !r2.isEmpty then none
    else some (esgn * (digitsVal ed : Int))

/-- One element of the TwelveData `values` array (struct `TDVal` in
main.rs; its `open` field is spelled `«open»` because `open` is a Lean
keyword). -/
structure TDVal where
  datetime : String
  «open» : String
  high : String
  low : String
  close : String
  volume : Option String := none
deriving Repr, DecidableEq

/-- The canonical bar record (struct `Agg` in main.rs).  The `f64`
fields are embedded as rationals. -/
structure Agg where
  t : Int
  o : ℚ
  h : ℚ
  l : ℚ
  c : ℚ
  v : Option ℚ := none
  vw : Option ℚ := none
  n : Option Int := none
deriving Repr, DecidableEq

/-- Decoding of one TwelveData value (the body of the `for v in vals`
loop in main.rs lines 311–324): parse the datetime with the fallback,
parse the four price strings, and parse the volume only when it is
present and non-empty — `Some(s) if !s.is_empty() => Some(s.parse()?),
_ => None`. -/
def decodeTDVal (v : TDVal) : Except String Agg :=
  match parse_datetime_td v.datetime with
  | none => .error ("Invalid datetime in Twelve Data response: " ++ v.datetime)
  | some dt =>
    let ts := dtTimestampMillis dt
    match parsef v.«open» with
    | none => .error "invalid float literal"
    | some o =>
      match parsef v.high with
      | none => .error "invalid float literal"
      | some h =>
        match parsef v.low with
        | none => .error "invalid float literal"
        | some l =>
          match parsef v.close with
          | none => .error "invalid float literal"
          | some c =>
            match v.volume with
            | some s =>
              if s.isEmpty then
                .ok { t := ts, o := o, h := h, l := l, c := c }
              else
                match parsef s with
                | none => .error "invalid float literal"
                | some vol =>
                  .ok { t := ts, o := o, h := h, l := l, c := c, v := some vol }
            | none => .ok { t := ts, o := o, h := h, l := l, c := c }

/-- Decoding a whole TwelveData `values` array: sequential, first error
aborts the page with no records produced. -/
def decodeTDVals : List TDVal → Except String (List Agg)
  | [] => .ok []
  | v :: rest =>
    match decodeTDVal v with
    | .error e => .error e
    | .ok a =>
      match decodeTDVals rest with
      | .error e => .error e
      | .ok as => .ok (a :: as)

/-! ## `fmt_ts` and the timestamp-to-UTC-instant conversion -/

/-- Proleptic-Gregorian date of a day count since 1970-01-01 (Howard
Hinnant's `civil_from_days`; chrono's day↔date conversion computes the
same calendar). -/
def civilFromDays (z0 : Int) : Int × Nat × Nat :=
  let z := z0 + 719468
  let era : Int := z.fdiv 146097
  let doe : Nat := (z - era * 146097).toNat
  let yoe : Nat := (doe - doe / 1460 + doe / 36524 - doe / 146096) / 365
  let y : Int := (yoe : Int) + era * 400
  let doy : Nat := doe - (365 * yoe + yoe / 4 - yoe / 100)
  let mp : Nat := (5 * doy + 2) / 153
  let d : Nat := doy - (153 * mp + 2) / 5 + 1
  let m : Nat := if mp < 10 then mp + 3 else mp - 9
  (if m ≤ 2 then y + 1 else y, m, d)

/-- Models `Utc.timestamp_millis_opt(ms).single()`: chrono builds a
`NaiveDateTime` from the millisecond count and yields `None` when the
date falls outside chrono's representable years `[-262144, 262143]`;
for `Utc` (a fixed offset) the result is otherwise always `Single`. -/
def timestamp_millis_single (ms : Int) : Option NaiveDT :=
  let days := ms.fdiv 86400000
  let msOfDay : Nat := (ms - days * 86400000).toNat
  let c := civilFromDays days
  if -262144 ≤ c.1 ∧ c.1 ≤ 262143 then
    some ⟨c.1, c.2.1, c.2.2, msOfDay / 3600000, msOfDay / 60000 % 60,
      msOfDay / 1000 % 60⟩
  else none

/-- Whether a millisecond timestamp maps to a unique UTC instant. -/
def tsValid (ms : Int) : Bool := (timestamp_millis_single ms).isSome

def pad2 (n : Nat) : String :=
  if n < 10 then "0" ++ toString n else toString n

def pad4 (n : Nat) : String :=
  if n < 10 then "000" ++ toString n
  else if n < 100 then "00" ++ toString n
  else if n < 1000 then "0" ++ toString n
  else toString n

/-- chrono `%Y`: zero-padded to 4 digits; outside `0..=9999` the year
is printed with an explicit sign (ISO 8601). -/
def fmtYear (y : Int) : String :=
  if 0 ≤ y ∧ y < 10000 then pad4 y.toNat
  else (if y < 0 then "-" else "+") ++ pad4 y.natAbs

/-- chrono's `"%Y-%m-%d %H:%M:%S"` rendering. -/
def formatYmdHms (dt : NaiveDT) : String :=
  fmtYear dt.year ++ "-" ++ pad2 dt.month ++ "-" ++ pad2 dt.day ++ " "
    ++ pad2 dt.hour ++ ":" ++ pad2 dt.minute ++ ":" ++ pad2 dt.second

/-- Function `fmt_ts` from main.rs lines 129–135: the UTC rendering when the
millisecond count maps to a unique UTC instant, the raw decimal
rendering of the input otherwise. -/
def fmt_ts (ms : Int) : String :=
  match timestamp_millis_single ms with
  | some dt => formatYmdHms dt
  | none => toString ms

/-! ## Configuration, sinks and the page loop of `download` -/

inductive OutputFormat
  | csv
  | json
deriving Repr, DecidableEq

inductive Granularity
  | minute
  | day
deriving Repr, DecidableEq

inductive Provider
  | polygon
  | twelveData
deriving Repr, DecidableEq

/-- The `DownloadArgs` the core consumes (CLI parsing itself is out of
scope; dates arrive as their `YYYY-MM-DD` renderings, which is the only
way `download` uses them). -/
structure DownloadArgs where
  ticker : String
  fromDate : String
  toDate : String
  api_key : Option String := none
  out : Option String := none
  format : OutputFormat := .csv
  granularity : Granularity := .minute
  no_header : Bool := false
  max_decimals : Nat := 2
  split_by_day : Bool := false
  provider : Provider := .polygon
deriving Repr, DecidableEq

/-- The environment variables `download` reads. -/
structure Env where
  polygonKey : Option String := none
  twelvedataKey : Option String := none
deriving Repr, DecidableEq

/-- The error taxonomy of the run (the program uses `anyhow` strings;
the variants keep the data each error carries). -/
inductive DlError
  | config (msg : String)
  | network (msg : String)
  | entitlement (msg : String)
  | httpStatus (status : Nat) (body : String)
  | decode (msg : String)
  | parse (msg : String)
deriving Repr, DecidableEq

def compute_out_path (ticker fromD toD : String) (format : OutputFormat)
    (out : Option String) : String :=
  match out with
  | some p => p
  | none =>
    let ext := match format with | .csv => "csv" | .json => "json"
    "output/" ++ ticker ++ "_" ++ fromD ++ "_" ++ toD ++ "." ++ ext

def envKey (p : Provider) (env : Env) : Option String :=
  match p with
  | .polygon => env.polygonKey
  | .twelveData => env.twelvedataKey

def missingKeyMsg : Provider → String
  | .polygon => "API key not provided. Use --apikey or set POLYGON_API_KEY."
  | .twelveData => "API key not provided. Use --apikey or set TWELVEDATA_API_KEY."

/-- The environment variable naming the credential source per provider. -/
def credentialSource : Provider → String
  | .polygon => "POLYGON_API_KEY"
  | .twelveData => "TWELVEDATA_API_KEY"

/-- API-key resolution (main.rs lines 166–181): the `--apikey` argument
first, then the provider's environment variable. -/
def resolveApiKey (args : DownloadArgs) (env : Env) : Except DlError String :=
  match args.api_key with
  | some k => .ok k
  | none =>
    match envKey args.provider env with
    | some k => .ok k
    | none => .error (.config (missingKeyMsg args.provider))

/-- Percent-encoding of `urlencoding::encode` (UTF-8 bytes; unreserved
characters `A-Z a-z 0-9 - _ . ~` kept, everything else `%HH`). -/
def urlencode (s : String) : String :=
  (s.toUTF8.toList.map fun b =>
    let n := b.toNat
    if (48 ≤ n ∧ n ≤ 57) ∨ (65 ≤ n ∧ n ≤ 90) ∨ (97 ≤ n ∧ n ≤ 122)
        ∨ n = 45 ∨ n = 46 ∨ n = 95 ∨ n = 126 then
      String.singleton (Char.ofNat n)
    else
      "%" ++ String.singleton (hexDigit (n / 16)) ++ String.singleton (hexDigit (n % 16))).foldl
    (· ++ ·) ""
where
  hexDigit (n : Nat) : Char :=
    if n < 10 then Char.ofNat (48 + n) else Char.ofNat (55 + n)

/-- The provider-specific initial request (main.rs lines 207–245). -/
def initialUrl (args : DownloadArgs) (key : String) : UrlQ :=
  match args.provider with
  | .polygon =>
    let gran := match args.granularity with | .minute => "minute" | .day => "day"
    { base := "https://api.polygon.io/v2/aggs/ticker/" ++ urlencode args.ticker
        ++ "/range/1/" ++ gran ++ "/" ++ args.fromDate ++ "/" ++ args.toDate,
      query := [("adjusted", "true"), ("sort", "asc"), ("limit", "50000"),
        ("apiKey", key)] }
  | .twelveData =>
    let interval := match args.granularity with | .minute => "1min" | .day => "1day"
    { base := "https://api.twelvedata.com/time_series",
      query := [("symbol", args.ticker), ("interval", interval),
        ("start_date", args.fromDate), ("end_date", args.toDate),
        ("order", "ASC"), ("timezone", "UTC"), ("format", "JSON"),
        ("outputsize", "5000"), ("apikey", key)] }

/-- Display of a URL (query percent-encoding is not modelled; no claim
depends on the rendered URL text beyond its presence). -/
def urlToString (u : UrlQ) : String :=
  u.base ++
    (if u.query.isEmpty then ""
     else "?" ++ String.intercalate "&" (u.query.map fun p => p.1 ++ "=" ++ p.2))

/-! ### Numeric and row formatting -/

/-- Models `f64::round` semantics: round half away from zero. -/
def rustRound (x : ℚ) : ℤ :=
  if 0 ≤ x then ⌊x + 1 / 2⌋ else -⌊-x + 1 / 2⌋

/-- The JSON sink's `round_to` closure: `(x * 10^prec).round() / 10^prec`. -/
def round_to (prec : Nat) (x : ℚ) : ℚ :=
  (rustRound (x * 10 ^ prec) : ℚ) / 10 ^ prec

def padZeros (width : Nat) (n : Nat) : String :=
  let s := toString n
  String.mk (List.replicate (width - s.length) '0') ++ s

/-- Models `format!("{:.prec$}", x)` on the rational stand-in of the `f64`
value: fixed-point with `prec` fractional digits (Rust rounds the
binary value exactly; on the rational model ties go away from zero —
no claim depends on the digits). -/
def fixedFmt (q : ℚ) (prec : Nat) : String :=
  let scaled := rustRound (q * 10 ^ prec)
  let sign := if scaled < 0 then "-" else ""
  let a := scaled.natAbs
  sign ++ toString (a / 10 ^ prec)
    ++ (if prec = 0 then "" else "." ++ padZeros prec (a % 10 ^ prec))

/-- Minimal JSON string escaping (`"` and `\`; the strings the program
emits never contain control characters). -/
def jsonEscape (s : String) : String :=
  s.data.foldl
    (fun acc c =>
      if c = '"' then acc ++ "\\\""
      else if c = '\\' then acc ++ "\\\\"
      else acc.push c) ""

/-- Trailing-zero-free decimal rendering of an already-rounded rational
(denominator dividing `10^prec`), as serde_json displays the `f64`;
integers keep a `.0`. -/
def jsonNumStr (prec : Nat) (q : ℚ) : String :=
  let scaled := rustRound (q * 10 ^ prec)
  let sign := if scaled < 0 then "-" else ""
  let a := scaled.natAbs
  let frac := (padZeros prec (a % 10 ^ prec)).dropRightWhile (· = '0')
  sign ++ toString (a / 10 ^ prec)
    ++ (if frac.isEmpty then ".0" else "." ++ frac)

def jsonOptNum (prec : Nat) : Option ℚ → String
  | some x => jsonNumStr prec (round_to prec x)
  | none => "null"

/-- The `serde_json::json!` object for one bar, with the timestamp slot
given explicitly; serde_json's default map is a `BTreeMap`, so keys
print in alphabetical order. -/
def jsonObjWithTs (prec : Nat) (ts : String) (r : Agg) : String :=
  "\x7b\"close\":" ++ jsonNumStr prec (round_to prec r.c)
    ++ ",\"high\":" ++ jsonNumStr prec (round_to prec r.h)
    ++ ",\"low\":" ++ jsonNumStr prec (round_to prec r.l)
    ++ ",\"n\":" ++ (match r.n with | some k => toString k | none => "null")
    ++ ",\"open\":" ++ jsonNumStr prec (round_to prec r.o)
    ++ ",\"timestamp\":\"" ++ jsonEscape ts ++ "\""
    ++ ",\"volume\":" ++ jsonOptNum prec r.v
    ++ ",\"vw\":" ++ jsonOptNum prec r.vw
    ++ "\x7d"

/-- The JSON object written for one bar (main.rs lines 458–467). -/
def jsonObjOf (prec : Nat) (r : Agg) : String :=
  jsonObjWithTs prec (fmt_ts r.t) r

/-- csv-crate field quoting (`QuoteStyle::Necessary`). -/
def csvQuote (f : String) : String :=
  if f.any (fun c => c = ',' ∨ c = '"' ∨ c = '\n' ∨ c = '\r') then
    "\"" ++ f.replace "\"" "\"\"" ++ "\""
  else f

/-- One record written through `csv::Writer::write_record`. -/
def csvRecord (fields : List String) : String :=
  String.intercalate "," (fields.map csvQuote) ++ "\n"

def csvHeaderFields : List String :=
  ["ticker", "timestamp", "open", "high", "low", "close", "volume"]

/-- The seven CSV fields for one bar, with the timestamp slot given
explicitly. -/
def csvFieldsWithTs (args : DownloadArgs) (ts : String) (r : Agg) : List String :=
  [args.ticker, ts, fixedFmt r.o args.max_decimals, fixedFmt r.h args.max_decimals,
    fixedFmt r.l args.max_decimals, fixedFmt r.c args.max_decimals,
    (match r.v with | some x => fixedFmt x args.max_decimals | none => "")]

/-- The CSV row written for one bar in the single-file sink
(main.rs lines 426–446). -/
def csvRowOf (args : DownloadArgs) (r : Agg) : String :=
  csvRecord (csvFieldsWithTs args (fmt_ts r.t) r)

/-! ### Split-by-day sink -/

/-- Path `output/{year}/{month:02}/{ticker}_{year}-{month:02}-{day:02}.csv`. -/
def dayPath (ticker : String) (dt : NaiveDT) : String :=
  "output/" ++ toString dt.year ++ "/" ++ pad2 dt.month ++ "/" ++ ticker
    ++ "_" ++ toString dt.year ++ "-" ++ pad2 dt.month ++ "-" ++ pad2 dt.day
    ++ ".csv"

def lookupFile (days : List (String × String)) (p : String) : Option String :=
  (days.find? (fun e => e.1 == p)).map (·.2)

def updateFile (days : List (String × String)) (p : String) (c : String) :
    List (String × String) :=
  if days.any (fun e => e.1 == p) then
    days.map (fun e => if e.1 == p then (p, c) else e)
  else days ++ [(p, c)]

/-- The raw `writeln!` row of the split-by-day sink (no csv-crate
quoting; main.rs line 368). -/
def splitRowOf (args : DownloadArgs) (r : Agg) : String :=
  args.ticker ++ "," ++ fmt_ts r.t ++ ","
    ++ fixedFmt r.o args.max_decimals ++ "," ++ fixedFmt r.h args.max_decimals
    ++ "," ++ fixedFmt r.l args.max_decimals ++ ","
    ++ fixedFmt r.c args.max_decimals ++ ","
    ++ (match r.v with | some x => fixedFmt x args.max_decimals | none => "")
    ++ "\n"

def splitHeaderRow : String := "ticker,timestamp,open,high,low,close,volume\n"

/-- One record of the split-by-day loop (main.rs lines 336–369): when
the timestamp maps to no unique UTC instant the record is skipped with
no write and no error; otherwise the per-day file is opened in append
mode (created if missing), the header is written when the file is empty
and headers are not suppressed, and the row is appended.  The function
is total: it never produces an error. -/
def splitWriteRecord (args : DownloadArgs) (r : Agg)
    (days : List (String × String)) : List (String × String) :=
  match timestamp_millis_single r.t with
  | none => days
  | some dt =>
    let path := dayPath args.ticker dt
    let existing := (lookupFile days path).getD ""
    let header := if existing.isEmpty ∧ ¬args.no_header then splitHeaderRow else ""
    updateFile days path (existing ++ header ++ splitRowOf args r)

def splitProcess (args : DownloadArgs) (results : List Agg)
    (days : List (String × String)) : List (String × String) :=
  results.foldl (fun ds r => splitWriteRecord args r ds) days

/-! ### Single-file sinks and the run state -/

inductive Sink
  | none
  | csv (content : String)
  | json (content : String)
deriving Repr, DecidableEq

/-- Externally observable actions of the run. -/
inductive Event
  | fetch (url : UrlQ)
  | createFile (path : String)
deriving Repr, DecidableEq

structure RunState where
  wroteAny : Bool := false
  sink : Sink := .none
  days : List (String × String) := []
  events : List Event := []
deriving Repr, DecidableEq

/-- Sink contents right after lazy creation (main.rs lines 373–420):
CSV writes the header row unless suppressed, JSON writes the opening
bracket. -/
def openSinkContent (args : DownloadArgs) : Sink :=
  match args.format with
  | .csv => .csv (if args.no_header then "" else csvRecord csvHeaderFields)
  | .json => .json "["

/-- The JSON write loop's separator logic (main.rs lines 454–457): a
comma before element `i` iff `wrote_any || i > 0`. -/
def jsonChunkFrom (sep : Bool) : List String → String
  | [] => ""
  | o :: rest => (if sep then "," else "") ++ o ++ jsonChunkFrom true rest

/-- One batch through the single-file path (main.rs lines 372–475):
lazily create the sink on the first non-empty batch, append the batch
through the open sink, then update `wrote_any`. -/
def singleProcess (args : DownloadArgs) (outPath : String) (results : List Agg)
    (st : RunState) : RunState :=
  let st1 :=
    if st.wroteAny = false ∧ results ≠ [] then
      { st with
          sink := openSinkContent args
          events := st.events ++ [.createFile outPath] }
    else st
  let st2 :=
    match st1.sink with
    | .csv c =>
      { st1 with sink := .csv (c ++ String.join (results.map (csvRowOf args))) }
    | .json c =>
      { st1 with sink := .json (c ++ jsonChunkFrom st.wroteAny
          (results.map (jsonObjOf args.max_decimals))) }
    | .none => st1
  { st2 with wroteAny := st2.wroteAny || !results.isEmpty }

/-- One decoded batch through the selected sink. -/
def processBatch (args : DownloadArgs) (outPath : String) (results : List Agg)
    (st : RunState) : RunState :=
  if args.split_by_day then
    { st with
        days := splitProcess args results st.days
        wroteAny := st.wroteAny || !results.isEmpty }
  else singleProcess args outPath results st

/-! ### HTTP responses and decoding -/

/-- Polygon's response envelope (struct `AggsResponse`); `next_url`
carries the already-parsed absolute URL (string URL parsing is not
modelled). -/
structure AggsResponse where
  results : Option (List Agg) := none
  next_url : Option UrlQ := none

/-- TwelveData's response envelope (struct `TDResp`). -/
structure TDResp where
  status : Option String := none
  values : Option (List TDVal) := none
  next_page_token : Option String := none
  message : Option String := none

/-- A response body as seen after the HTTP layer: one of the two
provider envelopes, or a body serde cannot parse. -/
inductive RespBody
  | polygon (r : AggsResponse)
  | twelve (r : TDResp)
  | invalidJson

/-- One scripted transport outcome for the fetch loop. -/
inductive FetchOutcome
  | transportError (msg : String)
  | response (status : Nat) (text : String) (body : RespBody)

/-- Models `reqwest::StatusCode::is_success`: `200..=299`. -/
def statusSuccess (s : Nat) : Bool := 200 ≤ s && s ≤ 299

def hint403 : String :=
  "\nHint: Your API key may not be entitled to this data. Try:\n- Using --granularity day (daily aggregates) instead of minute\n- Using a different ticker (e.g., equities like AAPL)\n- Upgrading your plan for minute/index data\nRequest URL: "

/-- The full HTTP-403 error message (main.rs lines 263–267). -/
def msg403 (text url : String) : String :=
  "HTTP 403 Forbidden: " ++ text ++ hint403 ++ url

def asciiLower (c : Char) : Char :=
  if 'A' ≤ c ∧ c ≤ 'Z' then Char.ofNat (c.toNat + 32) else c

/-- Models `str::eq_ignore_ascii_case`. -/
def eqIgnoreAsciiCase (a b : String) : Bool :=
  a.data.map asciiLower == b.data.map asciiLower

/-- Provider-specific continuation data extracted from a page. -/
inductive NextInfo
  | purl (u : Option UrlQ)
  | ttok (t : Option String)

/-- Decoding of a successful response body (main.rs lines 273–329):
Polygon takes `results` (absent means empty) and `next_url`; TwelveData
first checks `status == "error"` case-insensitively, then decodes each
value, then takes `next_page_token`. -/
def decodeBody (p : Provider) (b : RespBody) :
    Except DlError (List Agg × NextInfo) :=
  match p, b with
  | .polygon, .polygon r => .ok (r.results.getD [], .purl r.next_url)
  | .twelveData, .twelve r =>
    if (match r.status with
        | some s => eqIgnoreAsciiCase s "error"
        | none => false) then
      .error (.decode ("Twelve Data API error: "
        ++ r.message.getD "Unknown Twelve Data error"))
    else
      match decodeTDVals (r.values.getD []) with
      | .error e => .error (.parse e)
      | .ok bars => .ok (bars, .ttok r.next_page_token)
  | .polygon, _ => .error (.decode "Invalid JSON from API")
  | .twelveData, _ => .error (.decode "Invalid JSON from Twelve Data API")

/-- The next request from the continuation (main.rs lines 478–506):
Polygon injects the API key into the continuation URL only if missing;
TwelveData rebuilds from the fetched URL, stripping token keys and
appending the new `page_token`. -/
def nextRequest (fetchUrl : UrlQ) (key : String) :
    NextInfo → Option UrlQ
  | .purl (some u) => some (ensure_api_key_present u key)
  | .purl none => none
  | .ttok (some t) => some (buildNextTD fetchUrl t)
  | .ttok none => none

/-- The fetch→check→decode→write→continue loop (main.rs lines 247–519)
over a finite script of transport outcomes; running past the script's
end is a transport failure.  Every error aborts the loop immediately:
no retry, no further fetch. -/
def runPages (args : DownloadArgs) (outPath key : String) :
    List FetchOutcome → UrlQ → RunState → Except DlError Unit × RunState
  | [], url, st =>
    (.error (.network ("Request failed: " ++ urlToString url)),
      { st with events := st.events ++ [.fetch url] })
  | f :: rest, url, st =>
    let st' : RunState := { st with events := st.events ++ [.fetch url] }
    match f with
    | .transportError _ =>
      (.error (.network ("Request failed: " ++ urlToString url)), st')
    | .response status text body =>
      if !statusSuccess status then
        if status = 403 then
          (.error (.entitlement (msg403 text (urlToString url))), st')
        else
          (.error (.httpStatus status text), st')
      else
        match decodeBody args.provider body with
        | .error e => (.error e, st')
        | .ok (results, ni) =>
          let st'' := processBatch args outPath results st'
          match nextRequest url key ni with
          | some u => runPages args outPath key rest u st''
          | none => (.ok (), st'')

def noDataMsg (args : DownloadArgs) : String :=
  "No data returned for " ++ args.ticker ++ " between " ++ args.fromDate
    ++ " and " ++ args.toDate

def sinkFileContent : Sink → Option String
  | .none => Option.none
  | .csv c => some c
  | .json c => some c

/-- Result of a whole run: outcome (`ok` carries the final notice
line), event trace, per-day files, and the single output file's
content when one was created. -/
structure DownloadResult where
  res : Except DlError String
  events : List Event
  days : List (String × String)
  singleFile : Option String

def formatIsJson : OutputFormat → Bool
  | .json => true
  | .csv => false

/-- The whole `download` function (main.rs lines 164–540) against a
transport script: config checks before any fetch or file creation, the
page loop, the JSON closing bracket on the success path only, and the
final notice. -/
def download (args : DownloadArgs) (env : Env) (script : List FetchOutcome) :
    DownloadResult :=
  match resolveApiKey args env with
  | .error e => ⟨.error e, [], [], none⟩
  | .ok key =>
    if args.split_by_day && formatIsJson args.format then
      ⟨.error (.config "--split-by-day currently supports CSV format only"),
        [], [], none⟩
    else
      let outPath := compute_out_path args.ticker args.fromDate args.toDate
        args.format args.out
      let (res, st) := runPages args outPath key script (initialUrl args key) {}
      match res with
      | .error e => ⟨.error e, st.events, st.days, sinkFileContent st.sink⟩
      | .ok _ =>
        let finalSink := match st.sink with
          | .json c => Sink.json (c ++ "]")
          | s => s
        let note :=
          if st.wroteAny = false then noDataMsg args
          else if args.split_by_day then "Saved per-day CSV files under output/YYYY/MM"
          else "Saved to " ++ outPath
        ⟨.ok note, st.events, st.days, sinkFileContent finalSink⟩

/-- A TwelveData value has a failed numeric field: one of the four
price strings does not parse, or the volume is present, non-empty and
does not parse. -/
def tdValNumericFailure (v : TDVal) : Prop :=
  parsef v.«open» = none ∨ parsef v.high = none ∨ parsef v.low = none
    ∨ parsef v.close = none
    ∨ ∃ s, v.volume = some s ∧ s.isEmpty = false ∧ parsef s = none

/-- The page decodes to an empty batch (or fails before producing
one). -/
def respEmptyDecodes (p : Provider) : FetchOutcome → Prop
  | .transportError _ => True
  | .response _ _ body =>
    match decodeBody p body with
    | .ok x => x.1 = []
    | .error _ => True

/-- Comma-join of a list of strings (the body of a JSON array). -/
def joinC : List String → String
  | [] => ""
  | [o] => o
  | o :: rest => o ++ "," ++ joinC rest

/-- Invariant of the JSON single-file sink: either nothing was written
and no sink exists, or the sink holds the opening bracket followed by
the comma-join of the objects written so far. -/
def jsonSinkInv (prec : Nat) (st : RunState) : Prop :=
  (st.wroteAny = false ∧ st.sink = .none)
    ∨ (st.wroteAny = true ∧ ∃ objs : List String, objs ≠ []
        ∧ (∀ o ∈ objs, ∃ r : Agg, o = jsonObjOf prec r)
        ∧ st.sink = .json ("[" ++ joinC objs))

/-! ## Theorems -/

theorem buildNextTD_query (prev : UrlQ) (token : String) :
    (buildNextTD prev token).query
      = prev.query.filter notPageTokenKey ++ [("page_token", token)] := rfl

theorem filter_notPageTokenKey_buildNextTD (prev : UrlQ) (t : String) :
    (buildNextTD prev t).query.filter notPageTokenKey
      = prev.query.filter notPageTokenKey := by
  have hpt : notPageTokenKey ("page_token", t) = false := by
    simp [notPageTokenKey]
  simp [buildNextTD, List.filter_append, List.filter_filter, hpt, Bool.and_self]

/-- C1: applying the TwelveData next-request builder twice (with the
second application starting from the result of the first, as the
`download` loop does with `fetch_url`) yields a query with exactly one
`page_token` pair, holding the latest token, no `next_page_token` pair,
and all non-token pairs of the previous request preserved in order. -/
theorem td_next_request_builder_twice (u : UrlQ) (t₁ t₂ : String)
    (hne : t₁ ≠ t₂) :
    let prev := buildNextTD u t₁
    let r := buildNextTD prev t₂
    r.query.countP (fun p => p.1 == "page_token") = 1
      ∧ ("page_token", t₂) ∈ r.query
      ∧ ("page_token", t₁) ∉ r.query
      ∧ r.query.countP (fun p => p.1 == "next_page_token") = 0
      ∧ r.query.filter notPageTokenKey = prev.query.filter notPageTokenKey := by
  intro prev r
  have hfilter : r.query.filter notPageTokenKey
      = prev.query.filter notPageTokenKey :=
    filter_notPageTokenKey_buildNextTD prev t₂
  have hq : r.query = prev.query.filter notPageTokenKey ++ [("page_token", t₂)] :=
    buildNextTD_query prev t₂
  refine ⟨?_, ?_, ?_, ?_, hfilter⟩
  · rw [hq, List.countP_append]
    have hzero : (prev.query.filter notPageTokenKey).countP
        (fun p => p.1 == "page_token") = 0 := by
      rw [List.countP_eq_zero]
      intro p hp
      have := List.of_mem_filter hp
      simp only [notPageTokenKey, Bool.and_eq_true, bne_iff_ne, ne_eq] at this
      simp [this.1]
    simp [hzero]
  · rw [hq]; simp
  · rw [hq]
    intro hmem
    rcases List.mem_append.mp hmem with hmem | hmem
    · have := List.of_mem_filter hmem
      simp [notPageTokenKey] at this
    · simp at hmem
      exact hne hmem
  · rw [hq, List.countP_append]
    have hzero : (prev.query.filter notPageTokenKey).countP
        (fun p => p.1 == "next_page_token") = 0 := by
      rw [List.countP_eq_zero]
      intro p hp
      have := List.of_mem_filter hp
      simp only [notPageTokenKey, Bool.and_eq_true, bne_iff_ne, ne_eq] at this
      simp [this.2]
    simp [hzero]

theorem td_next_request_builder_twice_witness :
    let u : UrlQ := ⟨"https://api.twelvedata.com/time_series",
      [("symbol", "AAPL"), ("interval", "1day")]⟩
    let r := buildNextTD (buildNextTD u "tokA") "tokB"
    r.query.countP (fun p => p.1 == "page_token") = 1
      ∧ ("page_token", "tokB") ∈ r.query
      ∧ ("page_token", "tokA") ∉ r.query
      ∧ r.query.countP (fun p => p.1 == "next_page_token") = 0
      ∧ r.query.filter notPageTokenKey
          = (buildNextTD u "tokA").query.filter notPageTokenKey := by
  exact td_next_request_builder_twice
    ⟨"https://api.twelvedata.com/time_series",
      [("symbol", "AAPL"), ("interval", "1day")]⟩ "tokA" "tokB" (by decide)

/-- C2: `ensure_api_key_present` appends exactly one `apiKey` pair equal
to the caller's key when none is present, and leaves the URL completely
unchanged (same pairs, same values) when an `apiKey` pair already
exists, even if the supplied key differs. -/
theorem ensure_api_key_present_spec (u : UrlQ) (key : String) :
    ((∀ p ∈ u.query, p.1 ≠ "apiKey") →
        (ensure_api_key_present u key).query = u.query ++ [("apiKey", key)]
          ∧ (ensure_api_key_present u key).query.countP
              (fun p => p.1 == "apiKey") = 1
          ∧ ("apiKey", key) ∈ (ensure_api_key_present u key).query)
    ∧ ((∃ p ∈ u.query, p.1 = "apiKey") →
        ensure_api_key_present u key = u) := by
  constructor
  · intro hnone
    have hkey : u.query.any (fun p => p.1 == "apiKey") = false := by
      rw [List.any_eq_false]
      intro p hp
      simpa using hnone p hp
    have hq : (ensure_api_key_present u key).query
        = u.query ++ [("apiKey", key)] := by
      simp [ensure_api_key_present, hkey]
    refine ⟨hq, ?_, ?_⟩
    · rw [hq, List.countP_append]
      have hzero : u.query.countP (fun p => p.1 == "apiKey") = 0 := by
        rw [List.countP_eq_zero]
        intro p hp
        simpa using hnone p hp
      simp [hzero]
    · rw [hq]; simp
  · intro ⟨p, hp, hpk⟩
    have hkey : u.query.any (fun p => p.1 == "apiKey") = true :=
      List.any_eq_true.mpr ⟨p, hp, by simpa using hpk⟩
    simp [ensure_api_key_present, hkey]

theorem ensure_api_key_present_spec_witness :
    ((ensure_api_key_present ⟨"https://example.com/path", [("foo", "1")]⟩
        "KEY123").query = [("foo", "1"), ("apiKey", "KEY123")]
      ∧ (ensure_api_key_present ⟨"https://example.com/path", [("foo", "1")]⟩
          "KEY123").query.countP (fun p => p.1 == "apiKey") = 1
      ∧ ("apiKey", "KEY123") ∈ (ensure_api_key_present
          ⟨"https://example.com/path", [("foo", "1")]⟩ "KEY123").query)
    ∧ ensure_api_key_present
        ⟨"https://example.com/path", [("apiKey", "ABC"), ("x", "1")]⟩
        "SHOULD_NOT_OVERRIDE"
      = ⟨"https://example.com/path", [("apiKey", "ABC"), ("x", "1")]⟩ := by
  constructor
  · exact (ensure_api_key_present_spec
      ⟨"https://example.com/path", [("foo", "1")]⟩ "KEY123").1
      (by decide)
  · exact (ensure_api_key_present_spec
      ⟨"https://example.com/path", [("apiKey", "ABC"), ("x", "1")]⟩
      "SHOULD_NOT_OVERRIDE").2 ⟨("apiKey", "ABC"), by simp, rfl⟩

/-- C10: `fmt_ts` is total — a Lean function defined on every `Int`,
returning the `"%Y-%m-%d %H:%M:%S"` UTC rendering when the value maps
to a unique UTC instant and the plain decimal rendering of the raw
input otherwise — and deterministic. -/
theorem fmt_ts_total_deterministic :
    (∀ ms : Int, ∀ dt : NaiveDT, timestamp_millis_single ms = some dt →
        fmt_ts ms = formatYmdHms dt)
      ∧ (∀ ms : Int, timestamp_millis_single ms = none →
        fmt_ts ms = toString ms)
      ∧ (∀ a b : Int, a = b → fmt_ts a = fmt_ts b) :=
  ⟨fun _ _ h => by simp [fmt_ts, h],
   fun _ h => by simp [fmt_ts, h],
   fun _ _ h => by rw [h]⟩

theorem fmt_ts_total_deterministic_witness :
    fmt_ts 0 = "1970-01-01 00:00:00"
      ∧ fmt_ts 1711929600000 = "2024-04-01 00:00:00"
      ∧ fmt_ts 1000000000000000000 = "1000000000000000000" := by
  refine ⟨?_, ?_, ?_⟩
  · exact fmt_ts_total_deterministic.1 0 ⟨1970, 1, 1, 0, 0, 0⟩ (by decide)
  · exact fmt_ts_total_deterministic.1 1711929600000 ⟨2024, 4, 1, 0, 0, 0⟩
      (by decide)
  · exact fmt_ts_total_deterministic.2.1 1000000000000000000 (by decide)

/-- The date-only fallback can never produce a value: chrono's
`NaiveDateTime::parse_from_str` resolves through
`Parsed::to_naive_datetime`, which requires the `hour` and `minute`
fields, and the `%Y-%m-%d` format never fills them. -/
theorem parseYmdAsDateTime_eq_none (s : String) :
    parseYmdAsDateTime s = none := by
  unfold parseYmdAsDateTime
  cases h : scanYmd s.data with
  | none => rfl
  | some x =>
    obtain ⟨y, m, d, r⟩ := x
    by_cases hr : r.isEmpty <;> simp [hr, toNaiveDateTime]

/-- C3 (bug evaluation): a well-formed date-only datetime such as
`"2025-01-02"` fails both formats — the full format because the
time-of-day part is missing from the input, and the date-only fallback
because chrono cannot resolve a `NaiveDateTime` without time-of-day
fields (`NotEnough`) — so the record and the whole page fail with a
parse error instead of being accepted via the fallback.  A full
datetime still parses, and the fallback is unsatisfiable for every
input. -/
theorem td_date_only_datetime_rejected :
    parseYmdHms "2025-01-02" = none
      ∧ parseYmdAsDateTime "2025-01-02" = none
      ∧ parse_datetime_td "2025-01-02" = none
      ∧ decodeTDVal ⟨"2025-01-02", "1", "2", "0.5", "1.5", some "100"⟩
          = .error "Invalid datetime in Twelve Data response: 2025-01-02"
      ∧ (∀ s : String, parseYmdAsDateTime s = none)
      ∧ parseYmdHms "2025-01-02 03:04:05" = some ⟨2025, 1, 2, 3, 4, 5⟩ :=
  ⟨rfl, rfl, rfl, rfl, parseYmdAsDateTime_eq_none, rfl⟩

theorem decodeTDVal_error_of_numeric_failure (v : TDVal)
    (hbad : tdValNumericFailure v) : ∃ msg, decodeTDVal v = .error msg := by
  unfold decodeTDVal
  cases hdt : parse_datetime_td v.datetime with
  | none => exact ⟨_, rfl⟩
  | some dt =>
    cases ho : parsef v.«open» with
    | none => exact ⟨_, rfl⟩
    | some o =>
      cases hh : parsef v.high with
      | none => exact ⟨_, rfl⟩
      | some h2 =>
        cases hl : parsef v.low with
        | none => exact ⟨_, rfl⟩
        | some l2 =>
          cases hc : parsef v.close with
          | none => exact ⟨_, rfl⟩
          | some c2 =>
            rcases hbad with h | h | h | h | ⟨s, hs, hne, hp⟩
            · rw [h] at ho; exact Option.noConfusion ho
            · rw [h] at hh; exact Option.noConfusion hh
            · rw [h] at hl; exact Option.noConfusion hl
            · rw [h] at hc; exact Option.noConfusion hc
            · refine ⟨"invalid float literal", ?_⟩
              simp [hs, hne, hp]

/-- C4 (amended): for every TwelveData page, if any value has a price
string that fails to parse, or a present *non-empty* volume string that
fails to parse, the whole page decodes to an error and no record is
produced. -/
theorem td_numeric_parse_failure_fails_page (vals : List TDVal) (v : TDVal)
    (hv : v ∈ vals) (hbad : tdValNumericFailure v) :
    ∃ msg, decodeTDVals vals = .error msg := by
  induction vals with
  | nil => cases hv
  | cons w rest ih =>
    rcases List.mem_cons.mp hv with rfl | hmem
    · obtain ⟨msg, hm⟩ := decodeTDVal_error_of_numeric_failure v hbad
      exact ⟨msg, by simp [decodeTDVals, hm]⟩
    · cases hw : decodeTDVal w with
      | error e => exact ⟨e, by simp [decodeTDVals, hw]⟩
      | ok a =>
        obtain ⟨msg, hm⟩ := ih hmem
        refine ⟨msg, ?_⟩
        simp only [decodeTDVals, hw, hm]

theorem td_numeric_parse_failure_fails_page_witness :
    (⟨"2025-01-02 03:04:05", "x", "2", "0.5", "1.5", none⟩ : TDVal)
        ∈ [(⟨"2025-01-02 03:04:05", "x", "2", "0.5", "1.5", none⟩ : TDVal)]
      ∧ tdValNumericFailure ⟨"2025-01-02 03:04:05", "x", "2", "0.5", "1.5", none⟩
      ∧ ∃ msg, decodeTDVals
          [⟨"2025-01-02 03:04:05", "x", "2", "0.5", "1.5", none⟩] = .error msg :=
  ⟨List.mem_singleton.mpr rfl, Or.inl rfl,
    td_numeric_parse_failure_fails_page _ _ (List.mem_singleton.mpr rfl)
      (Or.inl rfl)⟩

/-- Any decomposition of the hint text locates a substring of the full
403 message. -/
theorem msg403_decompose (text url pre mid post : String)
    (h : hint403 = pre ++ mid ++ post) :
    strContains (msg403 text url) mid := by
  refine ⟨"HTTP 403 Forbidden: " ++ text ++ pre, post ++ url, ?_⟩
  simp [msg403, h, String.append_assoc]

theorem msg403_contains_body (text url : String) :
    strContains (msg403 text url) text :=
  ⟨"HTTP 403 Forbidden: ", hint403 ++ url, by
    simp [msg403, String.append_assoc]⟩

theorem msg403_contains_hint_daily (text url : String) :
    strContains (msg403 text url)
      "- Using --granularity day (daily aggregates) instead of minute" :=
  msg403_decompose text url
    "\nHint: Your API key may not be entitled to this data. Try:\n"
    "- Using --granularity day (daily aggregates) instead of minute"
    "\n- Using a different ticker (e.g., equities like AAPL)\n- Upgrading your plan for minute/index data\nRequest URL: "
    rfl

theorem msg403_contains_hint_ticker (text url : String) :
    strContains (msg403 text url)
      "- Using a different ticker (e.g., equities like AAPL)" :=
  msg403_decompose text url
    "\nHint: Your API key may not be entitled to this data. Try:\n- Using --granularity day (daily aggregates) instead of minute\n"
    "- Using a different ticker (e.g., equities like AAPL)"
    "\n- Upgrading your plan for minute/index data\nRequest URL: "
    rfl

theorem msg403_contains_hint_plan (text url : String) :
    strContains (msg403 text url)
      "- Upgrading your plan for minute/index data" :=
  msg403_decompose text url
    "\nHint: Your API key may not be entitled to this data. Try:\n- Using --granularity day (daily aggregates) instead of minute\n- Using a different ticker (e.g., equities like AAPL)\n"
    "- Upgrading your plan for minute/index data"
    "\nRequest URL: "
    rfl

/-- C5: a non-2xx response makes the run fail immediately — status 403
with an entitlement error embedding the response body and the three
remediation hints, any other non-2xx with an error carrying the status
and the body — and the trace gains exactly the one fetch of that
request, with no retry and none of the remaining script consumed. -/
theorem non_2xx_aborts_run (args : DownloadArgs) (outPath key : String)
    (url : UrlQ) (st : RunState) (status : Nat) (text : String)
    (body : RespBody) (rest : List FetchOutcome)
    (hfail : statusSuccess status = false) :
    (runPages args outPath key (.response status text body :: rest) url
        st).2.events = st.events ++ [.fetch url]
      ∧ (status = 403 →
          (runPages args outPath key (.response status text body :: rest) url
              st).1 = .error (.entitlement (msg403 text (urlToString url)))
            ∧ strContains (msg403 text (urlToString url)) text
            ∧ strContains (msg403 text (urlToString url))
                "- Using --granularity day (daily aggregates) instead of minute"
            ∧ strContains (msg403 text (urlToString url))
                "- Using a different ticker (e.g., equities like AAPL)"
            ∧ strContains (msg403 text (urlToString url))
                "- Upgrading your plan for minute/index data")
      ∧ (status ≠ 403 →
          (runPages args outPath key (.response status text body :: rest) url
              st).1 = .error (.httpStatus status text)) := by
  refine ⟨?_, fun h403 => ⟨?_, msg403_contains_body _ _,
      msg403_contains_hint_daily _ _, msg403_contains_hint_ticker _ _,
      msg403_contains_hint_plan _ _⟩, fun hne => ?_⟩
  · by_cases h403 : status = 403
    · subst h403; simp [runPages, hfail]
    · simp [runPages, hfail, h403]
  · subst h403; simp [runPages, hfail]
  · simp [runPages, hfail, hne]

theorem non_2xx_aborts_run_witness :
    let args : DownloadArgs :=
      { ticker := "AAPL", fromDate := "2025-01-02", toDate := "2025-01-02" }
    let url : UrlQ := ⟨"https://api.polygon.io/x", []⟩
    ((runPages args "out.csv" "K"
          [.response 403 "forbidden" .invalidJson] url {}).2.events
        = [Event.fetch url]
      ∧ (runPages args "out.csv" "K"
          [.response 403 "forbidden" .invalidJson] url {}).1
        = .error (.entitlement (msg403 "forbidden" (urlToString url)))
      ∧ strContains (msg403 "forbidden" (urlToString url)) "forbidden")
    ∧ (runPages args "out.csv" "K"
        [.response 500 "oops" .invalidJson] url {}).1
      = .error (.httpStatus 500 "oops") := by
  intro args url
  have h403 := non_2xx_aborts_run args "out.csv" "K" url {} 403 "forbidden"
    .invalidJson [] (by decide)
  have h500 := non_2xx_aborts_run args "out.csv" "K" url {} 500 "oops"
    .invalidJson [] (by decide)
  exact ⟨⟨h403.1, (h403.2.1 rfl).1, (h403.2.1 rfl).2.1⟩,
    h500.2.2 (by decide)⟩

/-- C8: the two configuration errors — an API key neither passed nor
resolvable from the active provider's environment variable, and
split-by-day combined with JSON — abort the run as config errors with
an empty event trace (no fetch), no per-day files and no output file;
and the missing-key message names the provider's credential source. -/
theorem config_errors_abort_before_io (args : DownloadArgs) (env : Env)
    (script : List FetchOutcome) :
    ((args.api_key = none ∧ envKey args.provider env = none) →
        (download args env script).res
            = .error (.config (missingKeyMsg args.provider))
          ∧ (download args env script).events = []
          ∧ (download args env script).days = []
          ∧ (download args env script).singleFile = none
          ∧ strContains (missingKeyMsg args.provider)
              (credentialSource args.provider))
      ∧ (∀ k, resolveApiKey args env = .ok k →
          args.split_by_day = true → args.format = .json →
            (download args env script).res
                = .error (.config "--split-by-day currently supports CSV format only")
              ∧ (download args env script).events = []
              ∧ (download args env script).days = []
              ∧ (download args env script).singleFile = none) := by
  constructor
  · intro ⟨hk, he⟩
    have hres : resolveApiKey args env
        = .error (.config (missingKeyMsg args.provider)) := by
      simp [resolveApiKey, hk, he]
    refine ⟨?_, ?_, ?_, ?_, ?_⟩
    · simp [download, hres]
    · simp [download, hres]
    · simp [download, hres]
    · simp [download, hres]
    · cases args.provider with
      | polygon =>
        exact ⟨"API key not provided. Use --apikey or set ", ".", rfl⟩
      | twelveData =>
        exact ⟨"API key not provided. Use --apikey or set ", ".", rfl⟩
  · intro k hk hsplit hjson
    refine ⟨?_, ?_, ?_, ?_⟩ <;>
      simp [download, hk, hsplit, hjson, formatIsJson]

theorem config_errors_abort_before_io_witness :
    let argsNoKey : DownloadArgs :=
      { ticker := "AAPL", fromDate := "2025-01-02", toDate := "2025-01-02" }
    let argsSplitJson : DownloadArgs :=
      { ticker := "AAPL", fromDate := "2025-01-02", toDate := "2025-01-02",
        api_key := some "K", format := .json, split_by_day := true }
    ((download argsNoKey {} []).res
        = .error (.config "API key not provided. Use --apikey or set POLYGON_API_KEY.")
      ∧ (download argsNoKey {} []).events = []
      ∧ strContains (missingKeyMsg .polygon) "POLYGON_API_KEY")
    ∧ ((download argsSplitJson {} []).res
        = .error (.config "--split-by-day currently supports CSV format only")
      ∧ (download argsSplitJson {} []).events = []) := by
  intro argsNoKey argsSplitJson
  have h1 := (config_errors_abort_before_io argsNoKey {} []).1 ⟨rfl, rfl⟩
  have h2 := (config_errors_abort_before_io argsSplitJson {} []).2 "K" rfl rfl rfl
  exact ⟨⟨h1.1, h1.2.1, h1.2.2.2.2⟩, h2.1, h2.2.1⟩

/-- C9: a bar whose millisecond timestamp maps to no unique UTC
instant is silently dropped by the split-by-day sink — no file is
touched, and the (total) sink function raises no error — while the
single-file sinks still write the bar, rendering its timestamp as the
raw decimal value: `fmt_ts` falls back to `toString`, the CSV row
carries that raw value in its timestamp field, the JSON object carries
it in its `timestamp` slot, and an open sink appends exactly that
row/object. -/
theorem split_drops_invalid_ts_bar (args : DownloadArgs) (r : Agg)
    (hts : tsValid r.t = false) :
    (∀ days, splitWriteRecord args r days = days)
      ∧ (∀ (pre post : List Agg) (days : List (String × String)),
          splitProcess args (pre ++ r :: post) days
            = splitProcess args (pre ++ post) days)
      ∧ fmt_ts r.t = toString r.t
      ∧ csvRowOf args r = csvRecord (csvFieldsWithTs args (toString r.t) r)
      ∧ jsonObjOf args.max_decimals r
          = jsonObjWithTs args.max_decimals (toString r.t) r
      ∧ (∀ (outPath c : String) (st : RunState), st.wroteAny = true →
          st.sink = .csv c →
            (singleProcess args outPath [r] st).sink
              = .csv (c ++ csvRowOf args r))
      ∧ (∀ (outPath c : String) (st : RunState), st.wroteAny = true →
          st.sink = .json c →
            (singleProcess args outPath [r] st).sink
              = .json (c ++ ("," ++ jsonObjOf args.max_decimals r))) := by
  have hnone : timestamp_millis_single r.t = none := by
    rcases h : timestamp_millis_single r.t with _ | dt
    · rfl
    · rw [tsValid, h] at hts; simp at hts
  have hdrop : ∀ days, splitWriteRecord args r days = days := by
    intro days
    simp [splitWriteRecord, hnone]
  have hfmt : fmt_ts r.t = toString r.t := by
    simp [fmt_ts, hnone]
  refine ⟨hdrop, ?_, hfmt, ?_, ?_, ?_, ?_⟩
  · intro pre post days
    simp [splitProcess, List.foldl_append, List.foldl_cons, hdrop]
  · rw [csvRowOf, hfmt]
  · rw [jsonObjOf, hfmt]
  · intro outPath c st hw hs
    simp [singleProcess, hw, hs, String.join, String.append_empty]
  · intro outPath c st hw hs
    simp [singleProcess, hw, hs, jsonChunkFrom, String.append_empty,
      String.append_assoc]

theorem split_drops_invalid_ts_bar_witness :
    let args : DownloadArgs :=
      { ticker := "AAPL", fromDate := "2025-01-02", toDate := "2025-01-02" }
    let r : Agg := { t := 1000000000000000000, o := 1, h := 2, l := 1, c := 1 }
    splitWriteRecord args r [] = []
      ∧ splitProcess args ([] ++ r :: []) [] = splitProcess args ([] ++ []) []
      ∧ fmt_ts r.t = toString r.t
      ∧ csvRowOf args r = csvRecord (csvFieldsWithTs args (toString r.t) r) := by
  intro args r
  have h := split_drops_invalid_ts_bar args r (by decide)
  exact ⟨h.1 [], h.2.1 [] [] [], h.2.2.1, h.2.2.2.1⟩

theorem singleProcess_nil (args : DownloadArgs) (outPath : String)
    (st : RunState) (hs : st.sink = .none) :
    singleProcess args outPath [] st = st := by
  cases st with
  | mk w sk d e =>
    simp only [RunState.mk.injEq] at hs ⊢
    subst hs
    simp [singleProcess]

theorem events_append_fetch {evs : List Event} {u0 : UrlQ} :
    ∀ e ∈ evs ++ [Event.fetch u0], e ∈ evs ∨ ∃ u, e = Event.fetch u := by
  intro e he
  rcases List.mem_append.mp he with h | h
  · exact Or.inl h
  · simp only [List.mem_singleton] at h
    exact Or.inr ⟨u0, h⟩

/-- Invariant of the page loop when every page decodes to an empty
batch (single-file mode): nothing is ever written, the sink is never
created, the per-day map is untouched, and the only events added are
fetches. -/
theorem runPages_all_empty (args : DownloadArgs) (outPath key : String)
    (hsplit : args.split_by_day = false) :
    ∀ script : List FetchOutcome,
      (∀ f ∈ script, respEmptyDecodes args.provider f) →
      ∀ url st, st.wroteAny = false → st.sink = .none →
        (runPages args outPath key script url st).2.wroteAny = false
          ∧ (runPages args outPath key script url st).2.sink = .none
          ∧ (runPages args outPath key script url st).2.days = st.days
          ∧ ∀ e ∈ (runPages args outPath key script url st).2.events,
              e ∈ st.events ∨ ∃ u, e = Event.fetch u := by
  intro script
  induction script with
  | nil =>
    intro _ url st hw hs
    exact ⟨hw, hs, rfl, events_append_fetch⟩
  | cons f rest ih =>
    intro hempty url st hw hs
    have hemptyRest : ∀ g ∈ rest, respEmptyDecodes args.provider g :=
      fun g hg => hempty g (List.mem_cons_of_mem f hg)
    cases f with
    | transportError m =>
      exact ⟨hw, hs, rfl, events_append_fetch⟩
    | response status text body =>
      cases hst : statusSuccess status with
      | false =>
        by_cases h403 : status = 403
        · subst h403
          simp only [runPages, hst]
          exact ⟨hw, hs, rfl, events_append_fetch⟩
        · simp only [runPages, hst, if_neg h403]
          exact ⟨hw, hs, rfl, events_append_fetch⟩
      | true =>
        cases hdb : decodeBody args.provider body with
        | error e =>
          simp only [runPages, hst, hdb]
          exact ⟨hw, hs, rfl, events_append_fetch⟩
        | ok x =>
          obtain ⟨results, ni⟩ := x
          have hres : results = [] := by
            have := hempty _ (List.mem_cons_self _ _)
            simpa [respEmptyDecodes, hdb] using this
          subst hres
          have hpb : processBatch args outPath []
              { st with events := st.events ++ [Event.fetch url] }
                = { st with events := st.events ++ [Event.fetch url] } := by
            rw [processBatch, if_neg (by simp [hsplit])]
            exact singleProcess_nil args outPath _ hs
          cases hnx : nextRequest url key ni with
          | none =>
            simp only [runPages, hst, hdb, hnx, hpb]
            exact ⟨hw, hs, rfl, events_append_fetch⟩
          | some u =>
            simp only [runPages, hst, hdb, hnx, hpb]
            obtain ⟨h1, h2, h3, h4⟩ := ih hemptyRest u
              { st with events := st.events ++ [Event.fetch url] } hw hs
            refine ⟨h1, h2, h3, fun e he => ?_⟩
            rcases h4 e he with hin | hf
            · exact events_append_fetch e hin
            · exact Or.inr hf

/-- C6: in the single-file sinks the output file is created exactly on
the first non-empty decoded batch (a `createFile` event is emitted by a
batch iff nothing was written before and the batch is non-empty), and a
run in which every page decodes to an empty batch never creates the
file and, when it terminates successfully, reports the "no data
returned" notice. -/
theorem single_file_lazy_creation (args : DownloadArgs) (env : Env)
    (script : List FetchOutcome) (hsplit : args.split_by_day = false) :
    (∀ (outPath : String) (results : List Agg) (st : RunState),
        (singleProcess args outPath results st).events
          = st.events ++ (if st.wroteAny = false ∧ results ≠ []
              then [Event.createFile outPath] else []))
      ∧ ((∀ f ∈ script, respEmptyDecodes args.provider f) →
          (∀ p, Event.createFile p ∉ (download args env script).events)
            ∧ (download args env script).singleFile = none
            ∧ ∀ note, (download args env script).res = .ok note →
                note = noDataMsg args) := by
  constructor
  · intro outPath results st
    by_cases hc : st.wroteAny = false ∧ results ≠ []
    · simp only [singleProcess, if_pos hc]
      cases hf : args.format <;> simp [openSinkContent, hf]
    · simp only [singleProcess, if_neg hc]
      cases hsk : st.sink <;> simp [hsk]
  · intro hempty
    rcases hkey : resolveApiKey args env with e | key
    · refine ⟨?_, ?_, ?_⟩ <;> simp [download, hkey]
    · have hnj : (args.split_by_day && formatIsJson args.format) = false := by
        simp [hsplit]
      obtain ⟨h1, h2, h3, h4⟩ := runPages_all_empty args
        (compute_out_path args.ticker args.fromDate args.toDate args.format args.out)
        key hsplit script hempty (initialUrl args key) {} rfl rfl
      rcases hrun : runPages args
          (compute_out_path args.ticker args.fromDate args.toDate args.format args.out)
          key script (initialUrl args key) {} with ⟨res, stf⟩
      rw [hrun] at h1 h2 h3 h4
      dsimp only at h1 h2 h3 h4
      refine ⟨?_, ?_, ?_⟩
      · intro p hp
        cases res with
        | error e =>
          rw [show (download args env script).events = stf.events by
            simp [download, hkey, hnj, hrun]] at hp
          rcases h4 _ hp with hin | ⟨u, hu⟩
          · simp at hin
          · exact Event.noConfusion hu
        | ok u =>
          rw [show (download args env script).events = stf.events by
            simp [download, hkey, hnj, hrun]] at hp
          rcases h4 _ hp with hin | ⟨u, hu⟩
          · simp at hin
          · exact Event.noConfusion hu
      · cases res with
        | error e => simp [download, hkey, hnj, hrun, h2, sinkFileContent]
        | ok u => simp [download, hkey, hnj, hrun, h2, sinkFileContent]
      · intro note hnote
        cases res with
        | error e =>
          rw [show (download args env script).res = .error e by
            simp [download, hkey, hnj, hrun]] at hnote
          exact Except.noConfusion hnote
        | ok u =>
          rw [show (download args env script).res
              = .ok (if stf.wroteAny = false then noDataMsg args
                else if args.split_by_day then
                  "Saved per-day CSV files under output/YYYY/MM"
                else "Saved to " ++ compute_out_path args.ticker args.fromDate
                  args.toDate args.format args.out) by
            simp [download, hkey, hnj, hrun]] at hnote
          rw [h1] at hnote
          simpa using hnote.symm

theorem single_file_lazy_creation_witness :
    let args : DownloadArgs := { ticker := "AAPL"
                                 fromDate := "2025-01-02"
                                 toDate := "2025-01-02"
                                 api_key := some "K" }
    let script : List FetchOutcome := [.response 200 "" (.polygon {})]
    (∀ p, Event.createFile p ∉ (download args {} script).events)
      ∧ (download args {} script).singleFile = none
      ∧ ∀ note, (download args {} script).res = .ok note →
          note = noDataMsg args := by
  intro args script
  refine (single_file_lazy_creation args {} script rfl).2 ?_
  intro f hf
  have hse : script = [FetchOutcome.response 200 "" (.polygon {})] := rfl
  rw [hse, List.mem_singleton] at hf
  subst hf
  exact rfl

theorem jsonChunkFrom_true_eq (l : List String) (hl : l ≠ []) :
    jsonChunkFrom true l = "," ++ joinC l := by
  induction l with
  | nil => exact absurd rfl hl
  | cons o rest ih =>
    cases rest with
    | nil => simp [jsonChunkFrom, joinC, String.append_empty]
    | cons p t =>
      have hrec := ih (by simp)
      simp only [jsonChunkFrom, joinC, if_pos] at hrec ⊢
      rw [hrec]
      simp [String.append_assoc]

theorem jsonChunkFrom_false_eq (l : List String) :
    jsonChunkFrom false l = joinC l := by
  cases l with
  | nil => rfl
  | cons o rest =>
    cases rest with
    | nil => simp [jsonChunkFrom, joinC, String.append_empty, String.empty_append]
    | cons p t =>
      rw [show jsonChunkFrom false (o :: p :: t)
            = "" ++ o ++ jsonChunkFrom true (p :: t) from rfl,
        jsonChunkFrom_true_eq (p :: t) (by simp)]
      rw [show joinC (o :: p :: t) = o ++ "," ++ joinC (p :: t) from rfl]
      simp [String.append_assoc, String.empty_append]

theorem joinC_append (xs ys : List String) (hxs : xs ≠ []) :
    joinC (xs ++ ys) = joinC xs ++ jsonChunkFrom true ys := by
  cases ys with
  | nil => simp [jsonChunkFrom, String.append_empty]
  | cons y t =>
    rw [jsonChunkFrom_true_eq (y :: t) (by simp)]
    induction xs with
    | nil => exact absurd rfl hxs
    | cons x xs' ih =>
      cases xs' with
      | nil => simp [joinC, String.append_assoc]
      | cons x2 t2 =>
        have ih2 := ih (by simp)
        calc joinC ((x :: x2 :: t2) ++ y :: t)
            = x ++ "," ++ joinC ((x2 :: t2) ++ y :: t) := rfl
          _ = x ++ "," ++ (joinC (x2 :: t2) ++ ("," ++ joinC (y :: t))) := by
              rw [ih2]
          _ = (x ++ "," ++ joinC (x2 :: t2)) ++ ("," ++ joinC (y :: t)) := by
              simp [String.append_assoc]
          _ = joinC (x :: x2 :: t2) ++ ("," ++ joinC (y :: t)) := rfl

theorem singleProcess_json_open (args : DownloadArgs) (outPath : String)
    (results : List Agg) (st : RunState) (hfmt : args.format = .json)
    (hw : st.wroteAny = false) (hres : results ≠ []) :
    singleProcess args outPath results st
      = { st with
          wroteAny := true
          sink := .json ("[" ++ jsonChunkFrom false
            (results.map (jsonObjOf args.max_decimals)))
          events := st.events ++ [.createFile outPath] } := by
  have hie : results.isEmpty = false := by
    simpa [List.isEmpty_iff] using hres
  simp [singleProcess, hw, hres, openSinkContent, hfmt, hie]

theorem singleProcess_json_append (args : DownloadArgs) (outPath : String)
    (results : List Agg) (st : RunState) (c : String)
    (hw : st.wroteAny = true) (hs : st.sink = .json c) :
    singleProcess args outPath results st
      = { st with
          sink := .json (c ++ jsonChunkFrom true
            (results.map (jsonObjOf args.max_decimals))) } := by
  simp [singleProcess, hw, hs]

theorem singleProcess_json_inv (args : DownloadArgs) (outPath : String)
    (results : List Agg) (st : RunState) (hfmt : args.format = .json)
    (hinv : jsonSinkInv args.max_decimals st) :
    jsonSinkInv args.max_decimals (singleProcess args outPath results st) := by
  rcases hinv with ⟨hw, hs⟩ | ⟨hw, objs, hne, hmem, hs⟩
  · by_cases hres : results = []
    · subst hres
      rw [singleProcess_nil args outPath st hs]
      exact Or.inl ⟨hw, hs⟩
    · rw [singleProcess_json_open args outPath results st hfmt hw hres]
      refine Or.inr ⟨rfl, results.map (jsonObjOf args.max_decimals),
        by simpa using hres, ?_, ?_⟩
      · intro o ho
        obtain ⟨r, _, hr⟩ := List.mem_map.mp ho
        exact ⟨r, hr.symm⟩
      · rw [jsonChunkFrom_false_eq]
  · rw [singleProcess_json_append args outPath results st _ hw hs]
    refine Or.inr ⟨hw, objs ++ results.map (jsonObjOf args.max_decimals),
      by simp [hne], ?_, ?_⟩
    · intro o ho
      rcases List.mem_append.mp ho with h | h
      · exact hmem o h
      · obtain ⟨r, _, hr⟩ := List.mem_map.mp h
        exact ⟨r, hr.symm⟩
    · rw [joinC_append _ _ hne, ← String.append_assoc]

/-- The page loop preserves the JSON sink invariant. -/
theorem runPages_json_inv (args : DownloadArgs) (outPath key : String)
    (hfmt : args.format = .json) (hsplit : args.split_by_day = false) :
    ∀ (script : List FetchOutcome) (url : UrlQ) (st : RunState),
      jsonSinkInv args.max_decimals st →
      jsonSinkInv args.max_decimals
        (runPages args outPath key script url st).2 := by
  intro script
  induction script with
  | nil => intro url st h; exact h
  | cons f rest ih =>
    intro url st h
    cases f with
    | transportError m => exact h
    | response status text body =>
      cases hst : statusSuccess status with
      | false =>
        by_cases h403 : status = 403
        · subst h403
          simp only [runPages, hst]
          exact h
        · simp only [runPages, hst, if_neg h403]
          exact h
      | true =>
        cases hdb : decodeBody args.provider body with
        | error e =>
          simp only [runPages, hst, hdb]
          exact h
        | ok x =>
          obtain ⟨results, ni⟩ := x
          have hinv' : jsonSinkInv args.max_decimals
              (processBatch args outPath results
                { st with events := st.events ++ [Event.fetch url] }) := by
            rw [processBatch, if_neg (by simp [hsplit])]
            exact singleProcess_json_inv args outPath results _ hfmt h
          cases hnx : nextRequest url key ni with
          | none =>
            simp only [runPages, hst, hdb, hnx]
            exact hinv'
          | some u =>
            simp only [runPages, hst, hdb, hnx]
            exact ih u _ hinv'

/-- C7: in JSON mode the separator/bracket bookkeeping makes every
successful run well formed: a run that wrote at least one bar leaves
the file holding exactly `[` + the comma-join of the written objects +
`]` (a well-formed JSON array of objects), and a run with zero bars
creates no file at all — the closing bracket is written only on the
successful path, so nothing ill-formed is ever left by a successful
run. -/
theorem json_output_always_valid (args : DownloadArgs) (env : Env)
    (script : List FetchOutcome) (hfmt : args.format = .json)
    (hsplit : args.split_by_day = false) :
    ∀ note, (download args env script).res = .ok note →
      ((download args env script).singleFile = none ∧ note = noDataMsg args)
        ∨ (∃ objs : List String, objs ≠ []
            ∧ (∀ o ∈ objs, ∃ r : Agg, o = jsonObjOf args.max_decimals r)
            ∧ (download args env script).singleFile
                = some ("[" ++ joinC objs ++ "]")) := by
  intro note hnote
  rcases hkey : resolveApiKey args env with e | key
  · rw [show (download args env script).res = .error e by
      simp [download, hkey]] at hnote
    exact Except.noConfusion hnote
  · have hnj : (args.split_by_day && formatIsJson args.format) = false := by
      simp [hsplit]
    have hinv := runPages_json_inv args
      (compute_out_path args.ticker args.fromDate args.toDate args.format args.out)
      key hfmt hsplit script (initialUrl args key) {} (Or.inl ⟨rfl, rfl⟩)
    rcases hrun : runPages args
        (compute_out_path args.ticker args.fromDate args.toDate args.format args.out)
        key script (initialUrl args key) {} with ⟨res, stf⟩
    rw [hrun] at hinv
    dsimp only at hinv
    cases res with
    | error e =>
      rw [show (download args env script).res = .error e by
        simp [download, hkey, hnj, hrun]] at hnote
      exact Except.noConfusion hnote
    | ok u =>
      rcases hinv with ⟨hw, hs⟩ | ⟨hw, objs, hne, hmem, hs⟩
      · left
        constructor
        · simp [download, hkey, hnj, hrun, hs, sinkFileContent]
        · rw [show (download args env script).res
              = .ok (if stf.wroteAny = false then noDataMsg args
                else if args.split_by_day then
                  "Saved per-day CSV files under output/YYYY/MM"
                else "Saved to " ++ compute_out_path args.ticker args.fromDate
                  args.toDate args.format args.out) by
            simp [download, hkey, hnj, hrun]] at hnote
          rw [hw] at hnote
          simpa using hnote.symm
      · refine Or.inr ⟨objs, hne, hmem, ?_⟩
        simp [download, hkey, hnj, hrun, hs, sinkFileContent]

theorem json_output_always_valid_witness :
    let args : DownloadArgs := { ticker := "AAPL"
                                 fromDate := "2025-01-02"
                                 toDate := "2025-01-02"
                                 api_key := some "K"
                                 format := .json }
    let script : List FetchOutcome := [.response 200 "" (.polygon {})]
    ((download args {} script).singleFile = none
        ∧ noDataMsg args = noDataMsg args)
      ∨ (∃ objs : List String, objs ≠ []
          ∧ (∀ o ∈ objs, ∃ r : Agg, o = jsonObjOf args.max_decimals r)
          ∧ (download args {} script).singleFile
              = some ("[" ++ joinC objs ++ "]")) := by
  intro args script
  exact json_output_always_valid args {} script rfl rfl (noDataMsg args) rfl

/-- C4 (counterexample to the claim as stated): a record whose volume
string is present but *empty* decodes successfully with volume `none`,
even though parsing the empty string to a float fails — so a parse
failure of a present volume string does not always fail the page. -/
theorem td_empty_volume_skips_parse :
    parsef "" = none
      ∧ (decodeTDVals
          [⟨"2025-01-02 00:00:00", "1", "2", "0.5", "1.5", some ""⟩]).isOk = true
      ∧ (match decodeTDVals
            [⟨"2025-01-02 00:00:00", "1", "2", "0.5", "1.5", some ""⟩] with
          | .ok l => l.map (fun a => a.v) = [none]
          | .error _ => False) :=
  ⟨rfl, rfl, rfl⟩

end MarketData


